import Mathlib

/-!
Verification of the metamesh-plugin-file-info repository.

The definitions below are a shallow embedding of the TypeScript sources:
  - character-list string helpers mirroring the node path functions
    (basename, extname) and the JS toLowerCase used by the plugin;
  - the extension classification table and getFileTypeFromExtension
    from src/plugin.ts;
  - the MIME resolution, metadata assembly and task-processing pipeline
    of the process function in src/plugin.ts, with the I/O oracles
    (file stat, magic-byte sniffing, the mime-types lookup table, the
    sink fetch outcome and the callback behaviour) passed explicitly;
  - the MetaCoreClient (safeFetch, mergeMetadata, setProperty);
  - the WebDAVClient stat and readBytes operations;
  - the WebDAV-variant classifier getFileTypeViaWebDAV from the second
    plugin revision present in the repository.
-/

namespace FileInfo

/-! ## String helpers (JS and node path semantics) -/

/-- Drop of the first n characters of a string, as JS slice(n). -/
def strDrop (s : String) (n : Nat) : String := ⟨s.data.drop n⟩

/-- Lower-casing as JS toLowerCase on ASCII input. -/
def strToLower (s : String) : String := ⟨s.data.map Char.toLower⟩

/-- Index of the last occurrence of a character, accumulator form. -/
def lastIndexOfAux (c : Char) : List Char → Nat → Option Nat → Option Nat
  | [], _, acc => acc
  | x :: xs, i, acc => lastIndexOfAux c xs (i + 1) (if x = c then some i else acc)

/-- Index of the last occurrence of a character in a string, if any. -/
def lastIndexOf (s : String) (c : Char) : Option Nat :=
  lastIndexOfAux c s.data 0 none

/-- Remove trailing path separators, as node path parsing does. -/
def stripTrailingSlashes (s : String) : String :=
  ⟨(s.data.reverse.dropWhile (fun c => c = '/')).reverse⟩

/-- node path.basename (posix): the part after the last separator,
trailing separators removed first. -/
def basename (p : String) : String :=
  let q := stripTrailingSlashes p
  match lastIndexOf q '/' with
  | none => q
  | some i => strDrop q (i + 1)

/-- node path.extname (posix): from the last dot of the basename to the
end, empty when the basename has no dot or its last dot is the leading
character; the name ".." also yields the empty extension. -/
def extname (p : String) : String :=
  match lastIndexOf (basename p) '.' with
  | none => ""
  | some i =>
      if i = 0 then ""
      else if basename p = ".." then ""
      else strDrop (basename p) i

/-- fileName as computed in src/plugin.ts: basename(filePath). -/
def parseFileName (p : String) : String := basename p

/-- extension as computed in src/plugin.ts:
extname(filePath).slice(1).toLowerCase(). -/
def parseExtension (p : String) : String := strToLower (strDrop (extname p) 1)

/-- The extension rule exactly as the specification words it: the
lower-cased substring of the basename after its last dot, empty when no
dot exists. Stated only for comparison with parseExtension. -/
def specClaimExtension (p : String) : String :=
  match lastIndexOf (basename p) '.' with
  | none => ""
  | some i => strToLower (strDrop (basename p) (i + 1))

/-! ## Extension classification (src/plugin.ts) -/

/-- The EXTENSION_MAPPINGS table of src/plugin.ts, verbatim. -/
def EXTENSION_MAPPINGS : List (String × String) := [
  ("mp4", "video"), ("mkv", "video"), ("webm", "video"), ("avi", "video"),
  ("mov", "video"), ("wmv", "video"), ("flv", "video"), ("m4v", "video"),
  ("mpg", "video"), ("mpeg", "video"), ("3gp", "video"), ("3g2", "video"),
  ("f4v", "video"), ("m2ts", "video"), ("mts", "video"), ("ts", "video"),
  ("vob", "video"), ("ogm", "video"), ("divx", "video"), ("xvid", "video"),
  ("mp3", "audio"), ("wav", "audio"), ("flac", "audio"), ("aac", "audio"),
  ("ogg", "audio"), ("m4a", "audio"),
  ("pdf", "document"), ("doc", "document"), ("docx", "document"),
  ("ppt", "document"), ("pptx", "document"), ("xls", "document"),
  ("xlsx", "document"), ("txt", "document"), ("rtf", "document"),
  ("jpg", "document"), ("jpeg", "document"), ("png", "document"),
  ("gif", "document"), ("bmp", "document"), ("tif", "document"),
  ("tiff", "document"), ("svg", "document"), ("webp", "document"),
  ("zip", "archive"), ("rar", "archive"), ("7z", "archive"),
  ("tar", "archive"), ("gz", "archive"), ("bz2", "archive"), ("xz", "archive"),
  ("srt", "subtitle"), ("sub", "subtitle"), ("sbv", "subtitle"), ("vtt", "subtitle"),
  ("torrent", "torrent")]

/-- Record lookup EXTENSION_MAPPINGS[key]. -/
def lookupExtension (key : String) : Option String :=
  EXTENSION_MAPPINGS.lookup key

/-- getFileTypeFromExtension of src/plugin.ts: empty extension yields
the string "undefined"; otherwise the lower-cased extension is looked
up in the table, with the JS falsy-or fallback to "other". -/
def getFileTypeFromExtension (ext : String) : String :=
  if ext = "" then "undefined"
  else
    match lookupExtension (strToLower ext) with
    | some t => if t = "" then "other" else t
    | none => "other"

/-! ## MIME resolution (src/plugin.ts, lines 117-131) -/

/-- JS string-or: the left operand unless it is falsy (empty). -/
def jsOrString (s d : String) : String := if s = "" then d else s

/-- MIME resolution of src/plugin.ts: the content-sniffing step runs in
a try block whose failures are absorbed; a detected MIME wins, otherwise
the mime-types extension lookup, otherwise the sentinel. The sniff
oracle is an Except (exceptions of fileTypeFromFile) of an Option (the
detected result may be undefined); the lookup oracle is the external
mime-types table (false is none). -/
def resolveMimeType (sniff : Except String (Option String))
    (extLookup : Option String) : String :=
  let fromContent : Option String :=
    match sniff with
    | Except.ok r => r
    | Except.error _ => none
  match fromContent with
  | some m => m
  | none =>
      match extLookup with
      | some m => jsOrString m "application/octet-stream"
      | none => "application/octet-stream"

/-! ## MetaCoreClient (src/meta-core-client.ts) -/

/-- Shape of a fetch response: status and body text. -/
structure HttpResponse where
  status : Nat
  body : String
deriving DecidableEq

/-- safeFetch of MetaCoreClient: a fetch that throws (timeout, refused
connection) is caught and becomes null; a response of any HTTP status is
returned as is. -/
def safeFetch (fetchResult : Except String HttpResponse) : Option HttpResponse :=
  match fetchResult with
  | Except.ok r => some r
  | Except.error _ => none

/-- mergeMetadata of MetaCoreClient: one PATCH through safeFetch, the
response (or null) silently ignored; the method itself never throws. -/
def mergeMetadata (fetchResult : Except String HttpResponse) : Except String Unit :=
  let _response := safeFetch fetchResult
  Except.ok ()

/-- setProperty of MetaCoreClient: one PUT through safeFetch, the
response (or null) silently ignored; the method itself never throws. -/
def setProperty (fetchResult : Except String HttpResponse) : Except String Unit :=
  let _response := safeFetch fetchResult
  Except.ok ()

/-! ## Task processing (src/plugin.ts process) -/

/-- The ProcessRequest fields used by process. -/
structure TaskRequest where
  taskId : String
  cid : String
  filePath : String
  callbackUrl : String
  metaCoreUrl : String
deriving DecidableEq

/-- The metadata object assembled by process. -/
structure FileMetadata where
  fileType : String
  mimeType : String
  sizeByte : String
  fileName : String
  extension : String
  filePath : String
deriving DecidableEq

/-- The metadata object as the field list sent to the sink. -/
def metadataFields (m : FileMetadata) : List (String × String) :=
  [("fileType", m.fileType), ("mimeType", m.mimeType),
   ("sizeByte", m.sizeByte), ("fileName", m.fileName),
   ("extension", m.extension), ("filePath", m.filePath)]

/-- The CallbackPayload sent through sendCallback. -/
structure CallbackPayload where
  taskId : String
  status : String
  duration : Nat
  error : Option String
  metadata : Option FileMetadata
deriving DecidableEq

/-- Observable side effects of one process run. -/
inductive Event where
  | sinkWrite (cid : String) (fields : List (String × String))
  | emit (payload : CallbackPayload)
deriving DecidableEq

/-- Outcomes of the I/O the process pipeline performs, passed in
explicitly: the fs stat result (size or thrown message), the
magic-byte sniff result, the external mime-types lookup table, the
fetch outcome seen by the sink write, and the elapsed duration. -/
structure ProcessEnv where
  statResult : Except String Nat
  sniffResult : Except String (Option String)
  mimeLookup : String → Option String
  sinkFetch : Except String HttpResponse
  duration : Nat

/-- The metadata assembled on the success path of process. -/
def assembleMetadata (req : TaskRequest) (env : ProcessEnv) (size : Nat) :
    FileMetadata :=
  { fileType := getFileTypeFromExtension (parseExtension req.filePath),
    mimeType := resolveMimeType env.sniffResult
      (env.mimeLookup (parseExtension req.filePath)),
    sizeByte := toString size,
    fileName := parseFileName req.filePath,
    extension := parseExtension req.filePath,
    filePath := req.filePath }

/-- The failed payload built in the catch block of process. -/
def failedPayload (req : TaskRequest) (duration : Nat) (msg : String) :
    CallbackPayload :=
  { taskId := req.taskId, status := "failed", duration := duration,
    error := some msg, metadata := none }

/-- The completed payload built on the success path of process. -/
def completedPayload (req : TaskRequest) (env : ProcessEnv) (size : Nat) :
    CallbackPayload :=
  { taskId := req.taskId, status := "completed", duration := env.duration,
    error := none, metadata := some (assembleMetadata req env size) }

/-- The catch block of process: one failed emission; if that callback
delivery itself throws, the process promise rejects. -/
def runCatch (req : TaskRequest) (env : ProcessEnv)
    (cb : CallbackPayload → Option String) (msg : String) :
    List Event × Except String Unit :=
  match cb (failedPayload req env.duration msg) with
  | none => ([Event.emit (failedPayload req env.duration msg)], Except.ok ())
  | some m => ([Event.emit (failedPayload req env.duration msg)], Except.error m)

/-- The process function of src/plugin.ts over explicit I/O outcomes.
The callback behaviour cb returns none when the delivery returns and
the thrown message when it throws. The trace lists the sink write
attempts and callback emissions in order; the Except is the settled
state of the process promise. Stat failure jumps to the catch block
before any sink write; the sniff failure is already absorbed inside
resolveMimeType; a throw from the completed-path sendCallback lands in
the same catch block, which emits a second, failed payload. -/
def process (req : TaskRequest) (env : ProcessEnv)
    (cb : CallbackPayload → Option String) :
    List Event × Except String Unit :=
  match env.statResult with
  | Except.error e => runCatch req env cb e
  | Except.ok size =>
      match mergeMetadata env.sinkFetch with
      | Except.error e =>
          (Event.sinkWrite req.cid (metadataFields (assembleMetadata req env size))
             :: (runCatch req env cb e).1,
           (runCatch req env cb e).2)
      | Except.ok _ =>
          match cb (completedPayload req env size) with
          | none =>
              ([Event.sinkWrite req.cid (metadataFields (assembleMetadata req env size)),
                Event.emit (completedPayload req env size)], Except.ok ())
          | some m =>
              (Event.sinkWrite req.cid (metadataFields (assembleMetadata req env size))
                 :: Event.emit (completedPayload req env size)
                 :: (runCatch req env cb m).1,
               (runCatch req env cb m).2)

/-- Number of callback emissions in a trace. -/
def countEmits (tr : List Event) : Nat :=
  (tr.filter fun e =>
    match e with
    | Event.emit _ => true
    | Event.sinkWrite _ _ => false).length

/-- Number of sink write attempts in a trace. -/
def countSinkWrites (tr : List Event) : Nat :=
  (tr.filter fun e =>
    match e with
    | Event.emit _ => false
    | Event.sinkWrite _ _ => true).length

/-! ## WebDAVClient (src/webdav-client.ts) -/

/-- Shape of the HEAD response seen by WebDAVClient.stat. -/
structure HeadResponse where
  status : Nat
  statusText : String
  contentLength : Option String
  lastModified : Option String
deriving DecidableEq

/-- JS parseInt(s, 10): optional whitespace, optional sign, leading
digits; none models NaN when no digit is found. -/
def jsParseInt (s : String) : Option Int :=
  let cs := s.data.dropWhile (fun c => c = ' ' ∨ c = '\t' ∨ c = '\n' ∨ c = '\r')
  let signed : Int × List Char :=
    match cs with
    | '-' :: rest => (-1, rest)
    | '+' :: rest => (1, rest)
    | _ => (1, cs)
  let ds := signed.2.takeWhile Char.isDigit
  if ds.isEmpty then none
  else some (signed.1 * Int.ofNat (ds.foldl (fun a c => a * 10 + (c.toNat - 48)) 0))

/-- The FileStats record returned by WebDAVClient.stat; size none
models the NaN a non-numeric Content-Length would give, mtime keeps the
raw Last-Modified header (Date construction is not modelled). -/
structure FileStats where
  size : Option Int
  mtime : Option String
deriving DecidableEq

/-- response.ok of fetch: status in the 2xx range. -/
def responseOk (status : Nat) : Prop := 200 ≤ status ∧ status ≤ 299

instance (status : Nat) : Decidable (responseOk status) := by
  unfold responseOk; infer_instance

/-- WebDAVClient.stat: throws on a non-ok HEAD status with a message
carrying the path and the status; otherwise size is parsed from
Content-Length with the JS falsy fallback to 0 when the header is
missing or empty. -/
def webdavStat (filePath : String) (resp : HeadResponse) :
    Except String FileStats :=
  if responseOk resp.status then
    Except.ok
      { size :=
          match resp.contentLength with
          | some s => if s = "" then some 0 else jsParseInt s
          | none => some 0,
        mtime :=
          match resp.lastModified with
          | some s => if s = "" then none else some s
          | none => none }
  else
    Except.error ("WebDAV HEAD failed for " ++ filePath ++ ": "
      ++ toString resp.status ++ " " ++ resp.statusText)

/-- Shape of the range-GET response seen by WebDAVClient.readBytes. -/
structure RangeResponse where
  status : Nat
  statusText : String
  body : List Nat
deriving DecidableEq

/-- WebDAVClient.readBytes: throws only when the response is not ok and
the status is not 206, with a message carrying the path and the status;
otherwise the body bytes are returned. -/
def readBytes (filePath : String) (resp : RangeResponse) :
    Except String (List Nat) :=
  if ¬ responseOk resp.status ∧ resp.status ≠ 206 then
    Except.error ("WebDAV Range GET failed for " ++ filePath ++ ": "
      ++ toString resp.status ++ " " ++ resp.statusText)
  else
    Except.ok resp.body

/-! ## WebDAV-variant classifier (the second plugin revision) -/

/-- getMimeTypeViaWebDAV of the WebDAV plugin revision: the readBytes
outcome is sniffed by the external fileTypeFromBuffer capability; any
error in the try block is absorbed to undefined. -/
def getMimeTypeViaWebDAV (rangeResult : Except String (List Nat))
    (sniff : List Nat → Option String) : Option String :=
  match rangeResult with
  | Except.ok buffer => sniff buffer
  | Except.error _ => none

/-- Modelled from the spec: the external @metazla/filename-tools
classifier method getFileTypeFromExtension, which takes a path and
categorizes by its extension; the local table of src/plugin.ts
documents itself as matching that library, so the library call is
modelled as the table classification of the parsed extension. -/
def libGetFileTypeFromExtension (filePath : String) : String :=
  getFileTypeFromExtension (parseExtension filePath)

/-- getFileTypeViaWebDAV of the WebDAV plugin revision: when a MIME
type was sniffed and the library mimeTypeMappings table (accessed
reflectively, passed here abstractly) maps it to a truthy category
other than the string "undefined", that category is returned and the
extension-based category is overridden; otherwise the extension-based
category is returned. -/
def getFileTypeViaWebDAV (mimeTypeMappings : String → Option String)
    (mimeType : Option String) (filePath : String) : String :=
  match mimeType with
  | some m =>
      match mimeTypeMappings m with
      | some t =>
          if t ≠ "" ∧ t ≠ "undefined" then t
          else libGetFileTypeFromExtension filePath
      | none => libGetFileTypeFromExtension filePath
  | none => libGetFileTypeFromExtension filePath

/-! ## Helper lemmas -/

/-- A value produced by an association-list lookup occurs among the
mapped second components. -/
theorem mem_map_snd_of_lookup {α β : Type} [BEq α] (a : α) (b : β) :
    ∀ l : List (α × β), List.lookup a l = some b → b ∈ l.map Prod.snd := by
  intro l
  induction l with
  | nil => intro h; cases h
  | cons p t ih =>
      intro h
      cases p with
      | mk k v =>
        rw [List.lookup] at h
        cases hak : (a == k) with
        | true =>
            rw [hak] at h
            simp only [Option.some.injEq] at h
            subst h
            exact List.mem_cons_self _ _
        | false =>
            rw [hak] at h
            exact List.mem_cons_of_mem _ (ih h)

/-- Every category value of the extension table is a nonempty string. -/
theorem extension_mapping_values_nonempty :
    ∀ v ∈ EXTENSION_MAPPINGS.map Prod.snd, v ≠ "" := by decide

/-- A category looked up in the extension table is never empty. -/
theorem lookupExtension_ne_empty (k v : String)
    (h : lookupExtension k = some v) : v ≠ "" :=
  extension_mapping_values_nonempty v
    (mem_map_snd_of_lookup k v EXTENSION_MAPPINGS h)

/-- Claim C5: getFileTypeFromExtension is total with the documented
behaviour: it never yields an empty category; the empty extension maps
to the string "undefined"; an extension whose lower-casing is in the
table maps to the tabulated category (so letter case is immaterial);
any other nonempty extension maps to "other". -/
theorem C5_classify_total (ext : String) :
    getFileTypeFromExtension ext ≠ "" ∧
    (ext = "" → getFileTypeFromExtension ext = "undefined") ∧
    (∀ cat, lookupExtension (strToLower ext) = some cat → ext ≠ "" →
      getFileTypeFromExtension ext = cat) ∧
    (lookupExtension (strToLower ext) = none → ext ≠ "" →
      getFileTypeFromExtension ext = "other") := by
  by_cases hE : ext = ""
  · subst hE
    refine ⟨by decide, fun _ => rfl, ?_, ?_⟩
    · intro cat _ hne; exact absurd rfl hne
    · intro _ hne; exact absurd rfl hne
  · unfold getFileTypeFromExtension
    rw [if_neg hE]
    cases hl : lookupExtension (strToLower ext) with
    | none =>
        refine ⟨by decide, fun h => absurd h hE, ?_, fun _ _ => rfl⟩
        intro cat hcat _
        cases hcat
    | some cat =>
        have hne := lookupExtension_ne_empty _ _ hl
        refine ⟨?_, fun h => absurd h hE, ?_, ?_⟩
        · show (if cat = "" then "other" else cat) ≠ ""
          rw [if_neg hne]
          exact hne
        · intro cat2 hcat2 _
          have hcc : cat = cat2 := by injection hcat2
          subst hcc
          show (if cat = "" then "other" else cat) = cat
          rw [if_neg hne]
        · intro hnone _
          cases hnone

/-- Witness for C5 at concrete extensions: upper-case "MKV" and the
unknown and empty extensions. -/
theorem C5_witness :
    getFileTypeFromExtension "MKV" = "video" ∧
    getFileTypeFromExtension "" = "undefined" ∧
    getFileTypeFromExtension "xyz" = "other" :=
  ⟨(C5_classify_total "MKV").2.2.1 "video" (by decide) (by decide),
   (C5_classify_total "").2.1 rfl,
   (C5_classify_total "xyz").2.2.2 (by decide) (by decide)⟩

/-- Scanning a list free of the sought character leaves the
accumulator of lastIndexOfAux unchanged. -/
theorem lastIndexOfAux_of_not_mem (c : Char) :
    ∀ (l : List Char) (i : Nat) (acc : Option Nat),
      (∀ x ∈ l, x ≠ c) → lastIndexOfAux c l i acc = acc := by
  intro l
  induction l with
  | nil => intro i acc _; rfl
  | cons x xs ih =>
      intro i acc h
      rw [lastIndexOfAux]
      rw [if_neg (h x (List.mem_cons_self _ _))]
      exact ih (i + 1) acc (fun y hy => h y (List.mem_cons_of_mem _ hy))

/-- A basename whose single dot is its leading character parses to the
empty extension. -/
theorem parseExtension_dotfile (p : String) (s : List Char)
    (hb : (basename p).data = '.' :: s) (hs : ∀ x ∈ s, x ≠ '.') :
    parseExtension p = "" := by
  have hli : lastIndexOf (basename p) '.' = some 0 := by
    unfold lastIndexOf
    rw [hb, lastIndexOfAux, if_pos rfl]
    exact lastIndexOfAux_of_not_mem '.' s 1 (some 0) hs
  unfold parseExtension extname
  rw [hli]
  rfl

/-- Claim C9: a path whose basename has exactly one dot, in leading
position, parses to the empty extension, and the classification of that
file therefore takes the empty-extension fallback "undefined". -/
theorem C9_dotfile_fallback (p : String) (s : List Char)
    (hb : (basename p).data = '.' :: s) (hs : ∀ x ∈ s, x ≠ '.') :
    parseExtension p = "" ∧
    getFileTypeFromExtension (parseExtension p) = "undefined" ∧
    (∀ req env size, req.filePath = p →
      (assembleMetadata req env size).extension = "" ∧
      (assembleMetadata req env size).fileType = "undefined") := by
  have he := parseExtension_dotfile p s hb hs
  refine ⟨he, by rw [he]; rfl, ?_⟩
  intro req env size hreq
  constructor
  · show parseExtension req.filePath = ""
    rw [hreq, he]
  · show getFileTypeFromExtension (parseExtension req.filePath) = "undefined"
    rw [hreq, he]
    rfl

/-- Witness for C9 at the concrete dotfile path. -/
theorem C9_witness :
    parseExtension "/dir/.gitignore" = "" ∧
    getFileTypeFromExtension (parseExtension "/dir/.gitignore") = "undefined" :=
  ⟨(C9_dotfile_fallback "/dir/.gitignore" "gitignore".data (by decide) (by decide)).1,
   (C9_dotfile_fallback "/dir/.gitignore" "gitignore".data (by decide) (by decide)).2.1⟩

/-- Dropping twice concatenates the drop counts. -/
theorem strDrop_strDrop (s : String) (m n : Nat) :
    strDrop (strDrop s m) n = strDrop s (m + n) := by
  unfold strDrop
  exact congrArg String.mk (List.drop_drop n m s.data)

/-- Counterexample to claim C7 as stated: the dotfile basename
".gitignore" has a last dot, yet the parsed extension is empty rather
than the substring "gitignore" after that dot. -/
theorem C7_counterexample :
    parseExtension "/dir/.gitignore" = "" ∧
    specClaimExtension "/dir/.gitignore" = "gitignore" ∧
    ("" : String) ≠ "gitignore" := by decide

/-- Claim C7 as amended: fileName is the basename; the extension is the
lower-cased substring of the basename after its last dot, except that a
basename without a dot, or whose last dot is its leading character,
yields the empty extension; the multi-dot example parses as documented
with the last dot winning. -/
theorem C7_amended (p : String) :
    parseFileName p = basename p ∧
    parseExtension p =
      (match lastIndexOf (basename p) '.' with
       | none => ""
       | some 0 => ""
       | some (i + 1) => strToLower (strDrop (basename p) (i + 2))) ∧
    parseFileName "/movies/Movie.Name.2010.1080p.mkv"
      = "Movie.Name.2010.1080p.mkv" ∧
    parseExtension "/movies/Movie.Name.2010.1080p.mkv" = "mkv" := by
  refine ⟨rfl, ?_, by decide, by decide⟩
  unfold parseExtension extname
  cases hli : lastIndexOf (basename p) '.' with
  | none => rfl
  | some i =>
      cases i with
      | zero => rfl
      | succ j =>
          show strToLower (strDrop
              (if j + 1 = 0 then ""
               else if basename p = ".." then ""
               else strDrop (basename p) (j + 1)) 1)
            = strToLower (strDrop (basename p) (j + 2))
          rw [if_neg (Nat.succ_ne_zero j)]
          by_cases hb : basename p = ".."
          · rw [if_pos hb]
            have h1 : lastIndexOf (basename p) '.' = some 1 := by rw [hb]; decide
            rw [hli] at h1
            have hj : j = 0 := by injection h1 with hv; omega
            subst hj
            rw [hb]
            decide
          · rw [if_neg hb, strDrop_strDrop]

/-- Counterexample to claim C8 as stated: HTTP status 204 is neither
200 nor 206, yet readBytes returns the body instead of raising, because
the source accepts every ok (2xx) status. -/
theorem C8_counterexample :
    readBytes "/files/a.bin" ⟨204, "No Content", [1, 2, 3]⟩
      = Except.ok [1, 2, 3] ∧
    (204 : Nat) ≠ 200 ∧ (204 : Nat) ≠ 206 := by
  refine ⟨?_, by decide, by decide⟩
  rfl

/-- Claim C8 as amended: readBytes treats every 2xx status, in
particular 200 and 206, as success and returns the body bytes; for a
status that is neither 2xx nor 206 it raises an error whose message
carries the attempted path and the HTTP status. -/
theorem C8_amended (filePath : String) (resp : RangeResponse) :
    (responseOk resp.status → readBytes filePath resp = Except.ok resp.body) ∧
    (resp.status = 206 → readBytes filePath resp = Except.ok resp.body) ∧
    (¬ responseOk resp.status → resp.status ≠ 206 →
      readBytes filePath resp = Except.error ("WebDAV Range GET failed for "
        ++ filePath ++ ": " ++ toString resp.status ++ " " ++ resp.statusText)) := by
  refine ⟨?_, ?_, ?_⟩
  · intro hok
    unfold readBytes
    rw [if_neg (fun hc => hc.1 hok)]
  · intro h206
    unfold readBytes
    rw [if_neg (fun hc => hc.2 h206)]
  · intro hok h206
    unfold readBytes
    rw [if_pos ⟨hok, h206⟩]

/-- Witness for C8 as amended, at a 206 range response and a 404
failure. -/
theorem C8_witness :
    readBytes "/files/movie.mkv" ⟨206, "Partial Content", [7, 8]⟩
      = Except.ok [7, 8] ∧
    readBytes "/files/movie.mkv" ⟨404, "Not Found", []⟩
      = Except.error "WebDAV Range GET failed for /files/movie.mkv: 404 Not Found" :=
  ⟨(C8_amended "/files/movie.mkv" ⟨206, "Partial Content", [7, 8]⟩).2.1 rfl,
   (C8_amended "/files/movie.mkv" ⟨404, "Not Found", []⟩).2.2
     (by decide) (by decide)⟩

/-- Claim C10: on a success (2xx) HEAD response without a
Content-Length header, the WebDAV stat returns a size of 0 instead of
raising; it raises exactly when the status is not a success status. -/
theorem C10_stat_defaults_size (filePath : String) (resp : HeadResponse) :
    (responseOk resp.status → resp.contentLength = none →
      ∃ st, webdavStat filePath resp = Except.ok st ∧ st.size = some 0) ∧
    ((∃ e, webdavStat filePath resp = Except.error e) ↔
      ¬ responseOk resp.status) := by
  constructor
  · intro hok hcl
    refine ⟨{ size :=
                match resp.contentLength with
                | some s => if s = "" then some 0 else jsParseInt s
                | none => some 0,
              mtime :=
                match resp.lastModified with
                | some s => if s = "" then none else some s
                | none => none }, ?_, ?_⟩
    · unfold webdavStat
      rw [if_pos hok]
    · show (match resp.contentLength with
            | some s => if s = "" then some 0 else jsParseInt s
            | none => some 0) = some 0
      rw [hcl]
  · constructor
    · rintro ⟨e, he⟩ hok
      unfold webdavStat at he
      rw [if_pos hok] at he
      cases he
    · intro hok
      refine ⟨"WebDAV HEAD failed for " ++ filePath ++ ": "
        ++ toString resp.status ++ " " ++ resp.statusText, ?_⟩
      unfold webdavStat
      rw [if_neg hok]

/-- Witness for C10 at a 200 response without Content-Length and a 404
response. -/
theorem C10_witness :
    (∃ st, webdavStat "/files/a.bin" ⟨200, "OK", none, none⟩
      = Except.ok st ∧ st.size = some 0) ∧
    (∃ e, webdavStat "/files/a.bin" ⟨404, "Not Found", none, none⟩
      = Except.error e) :=
  ⟨(C10_stat_defaults_size "/files/a.bin" ⟨200, "OK", none, none⟩).1
     (by decide) rfl,
   (C10_stat_defaults_size "/files/a.bin" ⟨404, "Not Found", none, none⟩).2.mpr
     (by decide)⟩

/-- The catch block always emits exactly the failed payload. -/
theorem runCatch_fst (req : TaskRequest) (env : ProcessEnv)
    (cb : CallbackPayload → Option String) (msg : String) :
    (runCatch req env cb msg).1
      = [Event.emit (failedPayload req env.duration msg)] := by
  unfold runCatch
  cases cb (failedPayload req env.duration msg) <;> rfl

/-- A failing stat jumps straight to the catch block: the trace is one
failed emission and nothing else. -/
theorem process_stat_error (req : TaskRequest) (env : ProcessEnv)
    (cb : CallbackPayload → Option String) (e : String)
    (h : env.statResult = Except.error e) :
    (process req env cb).1 = [Event.emit (failedPayload req env.duration e)] := by
  unfold process
  rw [h]
  exact runCatch_fst req env cb e

/-- The sink write never throws, whatever its fetch outcome. -/
theorem mergeMetadata_ok (f : Except String HttpResponse) :
    mergeMetadata f = Except.ok () := rfl

/-- On a successful stat and a callback that returns, process performs
one sink write of the assembled metadata and one completed emission. -/
theorem process_ok_noThrow (req : TaskRequest) (env : ProcessEnv)
    (cb : CallbackPayload → Option String) (size : Nat)
    (h : env.statResult = Except.ok size)
    (hcb : cb (completedPayload req env size) = none) :
    process req env cb =
      ([Event.sinkWrite req.cid (metadataFields (assembleMetadata req env size)),
        Event.emit (completedPayload req env size)], Except.ok ()) := by
  simp only [process, h, mergeMetadata_ok, hcb]

/-- On a successful stat and a completed-path callback delivery that
throws, process performs one sink write but emits twice: the completed
payload and, from the catch block, a failed payload carrying the thrown
message. -/
theorem process_ok_throw (req : TaskRequest) (env : ProcessEnv)
    (cb : CallbackPayload → Option String) (size : Nat) (m : String)
    (h : env.statResult = Except.ok size)
    (hcb : cb (completedPayload req env size) = some m) :
    (process req env cb).1 =
      [Event.sinkWrite req.cid (metadataFields (assembleMetadata req env size)),
       Event.emit (completedPayload req env size),
       Event.emit (failedPayload req env.duration m)] := by
  simp only [process, h, mergeMetadata_ok, hcb, runCatch_fst]

/-- Claim C1 as amended: in the src/plugin.ts variant the fileType of
the assembled metadata is the extension-table category of the parsed
extension alone and does not depend on the sniffing oracle; in the
WebDAV revision, a sniffed MIME that the library MIME-to-category table
maps to a truthy category other than the string "undefined" overrides
the extension-based category, and in every other case the
extension-based category is returned. -/
theorem C1_fileType_policy :
    (∀ req env size, (assembleMetadata req env size).fileType
        = getFileTypeFromExtension (parseExtension req.filePath)) ∧
    (∀ mm p m t, mm m = some t → t ≠ "" → t ≠ "undefined" →
        getFileTypeViaWebDAV mm (some m) p = t) ∧
    (∀ mm p m, mm m = none →
        getFileTypeViaWebDAV mm (some m) p = libGetFileTypeFromExtension p) ∧
    (∀ mm p m t, mm m = some t → (t = "" ∨ t = "undefined") →
        getFileTypeViaWebDAV mm (some m) p = libGetFileTypeFromExtension p) ∧
    (∀ mm p, getFileTypeViaWebDAV mm none p = libGetFileTypeFromExtension p) := by
  refine ⟨fun _ _ _ => rfl, ?_, ?_, ?_, fun _ _ => rfl⟩
  · intro mm p m t hm h1 h2
    show (match mm m with
          | some t =>
              if t ≠ "" ∧ t ≠ "undefined" then t
              else libGetFileTypeFromExtension p
          | none => libGetFileTypeFromExtension p) = t
    rw [hm]
    show (if t ≠ "" ∧ t ≠ "undefined" then t
          else libGetFileTypeFromExtension p) = t
    rw [if_pos ⟨h1, h2⟩]
  · intro mm p m hm
    show (match mm m with
          | some t =>
              if t ≠ "" ∧ t ≠ "undefined" then t
              else libGetFileTypeFromExtension p
          | none => libGetFileTypeFromExtension p)
        = libGetFileTypeFromExtension p
    rw [hm]
  · intro mm p m t hm hd
    show (match mm m with
          | some t =>
              if t ≠ "" ∧ t ≠ "undefined" then t
              else libGetFileTypeFromExtension p
          | none => libGetFileTypeFromExtension p)
        = libGetFileTypeFromExtension p
    rw [hm]
    show (if t ≠ "" ∧ t ≠ "undefined" then t
          else libGetFileTypeFromExtension p) = libGetFileTypeFromExtension p
    rw [if_neg (fun hc => hd.elim hc.1 hc.2)]

/-- Witness for C1 as amended at concrete inputs. -/
theorem C1_witness :
    getFileTypeViaWebDAV (fun m => if m = "video/webm" then some "video" else none)
      (some "video/webm") "/films/clip.avi" = "video" ∧
    getFileTypeViaWebDAV (fun _ => none) (some "text/plain") "/films/clip.avi"
      = libGetFileTypeFromExtension "/films/clip.avi" :=
  ⟨C1_fileType_policy.2.1 (fun m => if m = "video/webm" then some "video" else none)
      "/films/clip.avi" "video/webm" "video" (by decide) (by decide) (by decide),
   C1_fileType_policy.2.2.1 (fun _ => none) "/films/clip.avi" "text/plain" rfl⟩

/-- Counterexample to claim C1 as stated: in the WebDAV revision a
sniffed MIME that the library table maps to a category does change the
fileType, here away from the extension category "video" of an mkv
path. -/
theorem C1_counterexample :
    getFileTypeViaWebDAV (fun m => if m = "image/png" then some "image" else none)
      (some "image/png") "/tmp/movie.mkv" = "image" ∧
    libGetFileTypeFromExtension "/tmp/movie.mkv" = "video" ∧
    ("image" : String) ≠ "video" := by decide

/-- Claim C2: the final mimeType is the content-sniffed value when
sniffing produced one; a sniffing exception is absorbed and the
extension lookup is used; when both sniffing and lookup produce
nothing the sentinel application/octet-stream is used; and a sniffing
failure does not fail the task, whose single sink write and completed
emission still happen. -/
theorem C2_mime_precedence (req : TaskRequest) (env : ProcessEnv)
    (cb : CallbackPayload → Option String) (size : Nat)
    (h : env.statResult = Except.ok size)
    (hcb : cb (completedPayload req env size) = none) :
    (∀ m, env.sniffResult = Except.ok (some m) →
      (assembleMetadata req env size).mimeType = m) ∧
    (∀ e v, env.sniffResult = Except.error e →
      env.mimeLookup (parseExtension req.filePath) = some v → v ≠ "" →
      (assembleMetadata req env size).mimeType = v) ∧
    (∀ v, env.sniffResult = Except.ok none →
      env.mimeLookup (parseExtension req.filePath) = some v → v ≠ "" →
      (assembleMetadata req env size).mimeType = v) ∧
    ((env.sniffResult = Except.ok none ∨
        (∃ e, env.sniffResult = Except.error e)) →
      env.mimeLookup (parseExtension req.filePath) = none →
      (assembleMetadata req env size).mimeType = "application/octet-stream") ∧
    process req env cb =
      ([Event.sinkWrite req.cid (metadataFields (assembleMetadata req env size)),
        Event.emit (completedPayload req env size)], Except.ok ()) ∧
    (completedPayload req env size).status = "completed" := by
  refine ⟨?_, ?_, ?_, ?_, process_ok_noThrow req env cb size h hcb, rfl⟩
  · intro m hm
    show resolveMimeType env.sniffResult
      (env.mimeLookup (parseExtension req.filePath)) = m
    rw [hm]
    rfl
  · intro e v he hv hvne
    show resolveMimeType env.sniffResult
      (env.mimeLookup (parseExtension req.filePath)) = v
    rw [he, hv]
    show jsOrString v "application/octet-stream" = v
    unfold jsOrString
    rw [if_neg hvne]
  · intro v hn hv hvne
    show resolveMimeType env.sniffResult
      (env.mimeLookup (parseExtension req.filePath)) = v
    rw [hn, hv]
    show jsOrString v "application/octet-stream" = v
    unfold jsOrString
    rw [if_neg hvne]
  · intro hs hl
    show resolveMimeType env.sniffResult
      (env.mimeLookup (parseExtension req.filePath)) = "application/octet-stream"
    cases hs with
    | inl hn => rw [hn, hl]; rfl
    | inr hex =>
        cases hex with
        | intro e he => rw [he, hl]; rfl

/-- Witness for C2: a task whose sniffing throws and whose lookup comes
back empty gets the sentinel MIME type and still completes. -/
theorem C2_witness :
    (assembleMetadata ⟨"t1", "c1", "/data/blob.xyz", "http://cb", "http://core"⟩
      ⟨Except.ok 42, Except.error "read failed", fun _ => none,
        Except.error "refused", 5⟩ 42).mimeType = "application/octet-stream" ∧
    (process ⟨"t1", "c1", "/data/blob.xyz", "http://cb", "http://core"⟩
      ⟨Except.ok 42, Except.error "read failed", fun _ => none,
        Except.error "refused", 5⟩ (fun _ => none)).2 = Except.ok () := by
  have h := C2_mime_precedence
    ⟨"t1", "c1", "/data/blob.xyz", "http://cb", "http://core"⟩
    ⟨Except.ok 42, Except.error "read failed", fun _ => none,
      Except.error "refused", 5⟩ (fun _ => none) 42 rfl rfl
  exact ⟨h.2.2.2.1 (Or.inr ⟨"read failed", rfl⟩) rfl, by rw [h.2.2.2.2.1]⟩

/-- Claim C3: a task whose stat fails emits exactly one failed outcome
carrying the error message, writes nothing to the sink, and the message
is as non-empty as the thrown one. -/
theorem C3_stat_failure (req : TaskRequest) (env : ProcessEnv)
    (cb : CallbackPayload → Option String) (e : String)
    (h : env.statResult = Except.error e) (he : e ≠ "") :
    (process req env cb).1 = [Event.emit (failedPayload req env.duration e)] ∧
    countSinkWrites (process req env cb).1 = 0 ∧
    (failedPayload req env.duration e).status = "failed" ∧
    (failedPayload req env.duration e).error = some e ∧
    e ≠ "" := by
  have ht := process_stat_error req env cb e h
  refine ⟨ht, ?_, rfl, rfl, he⟩
  rw [ht]
  rfl

/-- Witness for C3: a concrete missing-file task. -/
theorem C3_witness :
    (process ⟨"t2", "c2", "/missing/file.mkv", "http://cb", "http://core"⟩
      ⟨Except.error "ENOENT: no such file or directory", Except.ok none,
        fun _ => none, Except.ok ⟨200, ""⟩, 3⟩ (fun _ => none)).1
      = [Event.emit (failedPayload
          ⟨"t2", "c2", "/missing/file.mkv", "http://cb", "http://core"⟩ 3
          "ENOENT: no such file or directory")] ∧
    countSinkWrites (process
      ⟨"t2", "c2", "/missing/file.mkv", "http://cb", "http://core"⟩
      ⟨Except.error "ENOENT: no such file or directory", Except.ok none,
        fun _ => none, Except.ok ⟨200, ""⟩, 3⟩ (fun _ => none)).1 = 0 := by
  have h := C3_stat_failure
    ⟨"t2", "c2", "/missing/file.mkv", "http://cb", "http://core"⟩
    ⟨Except.error "ENOENT: no such file or directory", Except.ok none,
      fun _ => none, Except.ok ⟨200, ""⟩, 3⟩ (fun _ => none)
    "ENOENT: no such file or directory" rfl (by decide)
  exact ⟨h.1, h.2.1⟩

/-- Claim C4: the sink client methods mergeMetadata and setProperty
return normally on every fetch outcome, and a task whose sink fetch
fails entirely still completes with its single write attempt and
completed emission. -/
theorem C4_sink_never_raises :
    (∀ f, mergeMetadata f = Except.ok ()) ∧
    (∀ f, setProperty f = Except.ok ()) ∧
    (∀ req env cb size e, env.statResult = Except.ok size →
      cb (completedPayload req env size) = none →
      env.sinkFetch = Except.error e →
      process req env cb =
        ([Event.sinkWrite req.cid (metadataFields (assembleMetadata req env size)),
          Event.emit (completedPayload req env size)], Except.ok ()) ∧
      (completedPayload req env size).status = "completed") := by
  refine ⟨fun _ => rfl, fun _ => rfl, ?_⟩
  intro req env cb size e h hcb _
  exact ⟨process_ok_noThrow req env cb size h hcb, rfl⟩

/-- Witness for C4: a concrete task with a refused sink connection. -/
theorem C4_witness :
    mergeMetadata (Except.error "connect ECONNREFUSED") = Except.ok () ∧
    (process ⟨"t3", "c3", "/films/clip.mp4", "http://cb", "http://core"⟩
      ⟨Except.ok 9, Except.ok none, fun _ => none,
        Except.error "connect ECONNREFUSED", 2⟩ (fun _ => none)).2
      = Except.ok () := by
  have h := C4_sink_never_raises.2.2
    ⟨"t3", "c3", "/films/clip.mp4", "http://cb", "http://core"⟩
    ⟨Except.ok 9, Except.ok none, fun _ => none,
      Except.error "connect ECONNREFUSED", 2⟩ (fun _ => none) 9
    "connect ECONNREFUSED" rfl rfl rfl
  exact ⟨C4_sink_never_raises.1 (Except.error "connect ECONNREFUSED"),
    by rw [h.1]⟩

/-- Counterexample to claim C6 as stated: a callback delivery that
throws on the completed payload makes the catch block send a second,
failed payload, so one request yields two emissions. -/
theorem C6_counterexample :
    countEmits (process
      ⟨"t4", "c4", "/tmp/movie.mkv", "http://cb", "http://core"⟩
      ⟨Except.ok 17, Except.ok none, fun _ => none, Except.error "refused", 5⟩
      (fun p => if p.status = "completed"
        then some "callback transport error" else none)).1 = 2 := by decide

/-- Claim C6 as amended: every request performs at most one sink write
attempt and between one and two emissions; when no callback delivery
throws it emits exactly once; the second emission arises only from a
throwing completed-path delivery. -/
theorem C6_effect_counts (req : TaskRequest) (env : ProcessEnv)
    (cb : CallbackPayload → Option String) :
    countSinkWrites (process req env cb).1 ≤ 1 ∧
    ((∀ p, cb p = none) → countEmits (process req env cb).1 = 1) ∧
    1 ≤ countEmits (process req env cb).1 ∧
    countEmits (process req env cb).1 ≤ 2 := by
  cases hst : env.statResult with
  | error e =>
      rw [process_stat_error req env cb e hst]
      exact ⟨Nat.zero_le 1, fun _ => rfl, Nat.le_refl 1, Nat.le_succ 1⟩
  | ok size =>
      cases hc : cb (completedPayload req env size) with
      | none =>
          rw [process_ok_noThrow req env cb size hst hc]
          exact ⟨Nat.le_refl 1, fun _ => rfl, Nat.le_refl 1, Nat.le_succ 1⟩
      | some m =>
          rw [process_ok_throw req env cb size m hst hc]
          refine ⟨Nat.le_refl 1, ?_, Nat.le_succ 1, Nat.le_refl 2⟩
          intro hall
          rw [hall (completedPayload req env size)] at hc
          cases hc

/-- Witness for C6 as amended: a non-throwing callback yields exactly
one emission and at most one sink write. -/
theorem C6_witness :
    countEmits (process
      ⟨"t5", "c5", "/tmp/movie.mkv", "http://cb", "http://core"⟩
      ⟨Except.ok 17, Except.ok none, fun _ => none, Except.error "refused", 5⟩
      (fun _ => none)).1 = 1 ∧
    countSinkWrites (process
      ⟨"t5", "c5", "/tmp/movie.mkv", "http://cb", "http://core"⟩
      ⟨Except.ok 17, Except.ok none, fun _ => none, Except.error "refused", 5⟩
      (fun _ => none)).1 ≤ 1 := by
  have h := C6_effect_counts
    ⟨"t5", "c5", "/tmp/movie.mkv", "http://cb", "http://core"⟩
    ⟨Except.ok 17, Except.ok none, fun _ => none, Except.error "refused", 5⟩
    (fun _ => none)
  exact ⟨h.2.1 (fun _ => rfl), h.1⟩

end FileInfo
